import Mathlib

/-!
Shallow embedding of `keras_unet_collection/_model_unet_plus_2d.py` and
`keras_unet_collection/losses.py`.

The graph builders (`unet_plus_2d_backbone`, `unet_plus_2d`) are embedded
over symbolic tensors: the layer primitives `Input`, `CONV_stack`,
`UNET_left`, `UNET_right`, `CONV_output` are external collaborators of this
code, so they appear as free constructors of an inductive type of graph
nodes.  The loss functions are embedded over exact rational numbers (real
numbers where a square root or a real power appears); floating point
rounding is outside the model.
-/

set_option autoImplicit false

namespace KUC

/-- Python-level runtime errors that the embedded code can produce, plus the
`ConfigurationError` kind that the documentation names (the code itself never
raises it; the constructor exists so that statements about it can be
written). -/
inductive PyError where
  | indexError
  | zeroDivisionError
  | typeError
  | invalidArgumentError
  | configurationError
  deriving DecidableEq

/-- Symbolic Keras tensors: the graph nodes produced by the layer primitives.
`CONV_stack`, `UNET_left`, `UNET_right`, `CONV_output` are external
collaborators (`keras_unet_collection.layer_utils`), modelled as free
constructors recording exactly the arguments the builder passes to them.
The `unet_right` node carries no `batch_norm`/`unpool` argument because the
backbone's call site passes none. -/
inductive STensor where
  | input (size : List (Option Nat))
  | conv_stack (t : STensor) (filters stack_num : Nat) (activation : String)
      (batch_norm : Bool) (name : String)
  | unet_left (t : STensor) (filters stack_num : Nat) (activation : String)
      (pool batch_norm : Bool) (name : String)
  | unet_right (t : STensor) (skips : List STensor) (filters stack_num : Nat)
      (activation : String) (name : String)
  | conv_output (t : STensor) (n_labels kernel_size : Nat) (activation : String)
      (name : String)

/-- Default tensor used by `List.getD` when reading the lattice; every access
is proved to be in range (claim C3's invariant), so this default is never the
value actually read. -/
def defaultT : STensor := .input []

/-- Argument bundle of `unet_plus_2d_backbone`: the input tensor and every
hyper-parameter other than `deep_supervision`.  `unpool` is accepted and
unused, exactly as in the source (the `UNET_right` call site omits it). -/
structure Config where
  input_tensor : STensor
  filter_num : List Nat
  stack_num_down : Nat
  stack_num_up : Nat
  activation : String
  batch_norm : Bool
  pool : Bool
  unpool : Bool
  name : String

/-- The encoder loop `for i, f in enumerate(filter_num[1:])`: each iteration
applies `UNET_left` to the running tensor and appends the result;
`idx` is the printed index `i+1` of `'name_down{i+1}'`. -/
def encoderTail (cfg : Config) : STensor → List Nat → Nat → List STensor
  | _, [], _ => []
  | x, f :: fs, idx =>
    let x' := STensor.unet_left x f cfg.stack_num_down cfg.activation cfg.pool
      cfg.batch_norm (cfg.name ++ "_down" ++ toString idx)
    x' :: encoderTail cfg x' fs (idx + 1)

/-- `X_nest_skip[0]` after the downsampling pass: the `CONV_stack` output
followed by the successive `UNET_left` outputs. -/
def encoderRow (cfg : Config) : List STensor :=
  match cfg.filter_num with
  | [] => []
  | f0 :: rest =>
    let x0 := STensor.conv_stack cfg.input_tensor f0 cfg.stack_num_down
      cfg.activation cfg.batch_norm (cfg.name ++ "_down0")
    x0 :: encoderTail cfg x0 rest 1

/-- One iteration of the decoder loop `for nest_lev in range(1, depth_)`:
position `i` ranges over `enumerate(filter_num_sub[::-1])`, i.e. over
`0 .. depth - nest_lev - 1` (the reversed value `f` is unused by the body,
which reads `filter_num[i]`).  The body only reads rows strictly below
`nest_lev`, so the row is a pure function of the previously built rows. -/
def decoderRow (cfg : Config) (rows : List (List STensor)) (nest_lev : Nat) :
    List STensor :=
  (List.range (cfg.filter_num.length - nest_lev)).map (fun i =>
    STensor.unet_right ((rows.getD (nest_lev - 1) []).getD (i + 1) defaultT)
      ((List.range nest_lev).map (fun p => (rows.getD p []).getD i defaultT))
      (cfg.filter_num.getD i 0) cfg.stack_num_up cfg.activation
      ("xnet_" ++ toString nest_lev ++ toString i))

/-- Rows `0 .. k` of the nested skip lattice: row `0` is the encoder row and
each later row is appended by `decoderRow`, mirroring
`X_nest_skip[nest_lev].append(...)` executed level by level. -/
def latticeUpTo (cfg : Config) : Nat → List (List STensor)
  | 0 => [encoderRow cfg]
  | k + 1 => latticeUpTo cfg k ++ [decoderRow cfg (latticeUpTo cfg k) (k + 1)]

/-- The finished `X_nest_skip` nested list: rows `0 .. depth-1`. -/
def X_nest_skip (cfg : Config) : List (List STensor) :=
  latticeUpTo cfg (cfg.filter_num.length - 1)

/-- The lattice cell `X_nest_skip[L][j]`. -/
def cell (cfg : Config) (L j : Nat) : STensor :=
  ((X_nest_skip cfg).getD L []).getD j defaultT

/-- The backbone's return value: a bare tensor (`deep_supervision = False`)
or a list of tensors (`deep_supervision = True`). -/
inductive BackboneOut where
  | tensor (t : STensor)
  | tensors (l : List STensor)

/-- Embedding of `unet_plus_2d_backbone`.  With an empty `filter_num` the
source raises `IndexError` at `filter_num[0]` inside the first `CONV_stack`
call, before any tensor is produced; the model returns that error.  The
non-deep-supervision output `X_nest_skip[-1][0]` is the Python negative
index, i.e. row `depth - 1`. -/
def unet_plus_2d_backbone (cfg : Config) (deep_supervision : Bool) :
    Except PyError BackboneOut :=
  match cfg.filter_num with
  | [] => .error .indexError
  | _ :: _ =>
    let lat := X_nest_skip cfg
    let depth_ := cfg.filter_num.length
    if deep_supervision then
      .ok (.tensors ((List.range depth_).map (fun i => (lat.getD i []).getD 0 defaultT)))
    else
      .ok (.tensor ((lat.getD (depth_ - 1) []).getD 0 defaultT))

/-- The Keras `Model(inputs=..., outputs=..., name=...)` object, holding
exactly what the assembler passes to it. -/
structure KModel where
  inputs : List STensor
  outputs : List STensor
  mname : String

/-- The layer name recorded in an output head node. -/
def outName : STensor → String
  | .conv_output _ _ _ _ n => n
  | _ => ""

/-- The banner printed by `unet_plus_2d` when `deep_supervision` is true. -/
def headerLine : String :=
  "----------\ndeep_supervision = True\nnames of output tensors are listed as follows (the last one is the final output):"

/-- Embedding of the model assembler `unet_plus_2d`.  Besides the model it
returns the list of printed lines, in print order.  `X_list[-1]` is the
Python negative index (last element).  Note the source prints
`'{name}_output_final'` for the last output while naming that head
`'{name}_output'`.  The `.tensor`/`.tensors` mismatch arms are unreachable
because the backbone is called with the same `deep_supervision` flag. -/
def unet_plus_2d (input_size : List (Option Nat)) (filter_num : List Nat)
    (n_labels : Nat) (stack_num_down stack_num_up : Nat)
    (activation output_activation : String)
    (batch_norm pool unpool deep_supervision : Bool) (name : String) :
    Except PyError (KModel × List String) :=
  let depth_ := filter_num.length
  let IN : STensor := .input input_size
  let cfg : Config := ⟨IN, filter_num, stack_num_down, stack_num_up, activation,
    batch_norm, pool, unpool, name⟩
  match unet_plus_2d_backbone cfg deep_supervision with
  | .error e => .error e
  | .ok out =>
    if deep_supervision then
      match out with
      | .tensors X_list =>
        let sups := (List.range' 1 (depth_ - 2)).map (fun i =>
          STensor.conv_output (X_list.getD i defaultT) n_labels 1 output_activation
            (name ++ "_output_sup" ++ toString i))
        let finalHead := STensor.conv_output (X_list.getD (X_list.length - 1) defaultT)
          n_labels 1 output_activation (name ++ "_output")
        let prints := headerLine ::
          ((List.range' 1 (depth_ - 2)).map
              (fun i => "\t" ++ name ++ "_output_sup" ++ toString i)
            ++ ["\t" ++ name ++ "_output_final"])
        .ok (⟨[IN], sups ++ [finalHead], name ++ "_model"⟩, prints)
      | .tensor _ => .error .typeError
    else
      match out with
      | .tensor X =>
        .ok (⟨[IN], [STensor.conv_output X n_labels 1 output_activation
          (name ++ "_output")], name ++ "_model"⟩, [])
      | .tensors _ => .error .typeError

/-- A concrete example configuration (depth 3, the docstring's style of
arguments) used to instantiate the universally quantified theorems. -/
def cfgEx : Config :=
  ⟨.input [none, none, some 3], [2, 4, 8], 2, 2, "ReLU", false, true, true, "xnet"⟩

/-- The configuration `unet_plus_2d` hands to the backbone, assembled from
the assembler's own arguments (`IN = Input(input_size)`). -/
def mkCfg (input_size : List (Option Nat)) (filter_num : List Nat) (sd su : Nat)
    (act : String) (bn pl up : Bool) (name : String) : Config :=
  ⟨.input input_size, filter_num, sd, su, act, bn, pl, up, name⟩

/-! Embedding of `losses.py`.  Tensor values are exact rationals.  The
Tversky family operates on the flattened element lists (both `tf.reshape`
to `[-1]` and `tf.squeeze` leave the row-major element sequence unchanged,
so squeezing is the identity on this representation).  The CRPS pair keeps
an explicit shape because its behaviour depends on `squeeze` and on the
first axis. -/

/-- The Keras fuzz factor `K.epsilon()`, i.e. `1e-07`. -/
def epsK : ℚ := 1 / 10000000

/-- Embedding of `tversky_`: both inputs reshaped to `[-1]` (the flat lists),
then `(TP + eps) / (TP + alpha*FN + (1-alpha)*FP + eps)`. -/
def tversky_ (y_true y_pred : List ℚ) (alpha : ℚ) : ℚ :=
  let true_pos := (List.zipWith (fun t p => t * p) y_true y_pred).sum
  let false_neg := (List.zipWith (fun t p => t * (1 - p)) y_true y_pred).sum
  let false_pos := (List.zipWith (fun t p => (1 - t) * p) y_true y_pred).sum
  (true_pos + epsK) /
    (true_pos + alpha * false_neg + (1 - alpha) * false_pos + epsK)

/-- Embedding of the Tversky loss `tversky` (the squeezes on the inputs do
not change the flattened element lists). -/
def tversky (y_true y_pred : List ℚ) (alpha : ℚ) : ℚ :=
  1 - tversky_ y_true y_pred alpha

/-- Embedding of `focal_tversky`, i.e.
`tf.math.pow(1 - tversky_(y_true, y_pred, alpha), 1/gamma)`.  The Python
expression `1/gamma` raises `ZeroDivisionError` when `gamma = 0`, before the
power is taken; otherwise the value is the real power, exact for base `0`
and positive exponent (the regime of the claims). -/
noncomputable def focal_tversky (y_true y_pred : List ℚ) (alpha gamma : ℚ) :
    Except PyError ℝ :=
  if gamma = 0 then .error .zeroDivisionError
  else .ok (((1 - tversky_ y_true y_pred alpha : ℚ) : ℝ) ^ ((1 : ℝ) / (gamma : ℝ)))

/-- A numeric (numpy/tf) tensor: a shape and the row-major element list. -/
structure NTensor where
  shape : List Nat
  data : List ℚ

/-- `np.squeeze` / `tf.squeeze`: every axis of size 1 is removed; the
row-major element sequence is unchanged. -/
def squeeze (t : NTensor) : NTensor :=
  ⟨t.shape.filter (fun n => n ≠ 1), t.data⟩

/-- The slice `t[i, ...]` along the first axis. -/
def sliceAt (t : NTensor) (i : Nat) : NTensor :=
  let m := t.shape.tail.prod
  ⟨t.shape.tail, (t.data.drop (i * m)).take m⟩

/-- Arithmetic mean of a list of rationals (`K.mean`, `np.mean` on the full
element set). -/
def qmean (l : List ℚ) : ℚ := l.sum / l.length

/-- `np.nanmean`: on NaN-free data (the only data this model can express) it
is the plain arithmetic mean. -/
def nanmean (l : List ℚ) : ℚ := l.sum / l.length

/-- `tf.math.reduce_std`: population standard deviation (ddof = 0) of all
elements. -/
noncomputable def reduce_std (l : List ℚ) : ℝ :=
  Real.sqrt ((qmean (l.map (fun x => (x - qmean l) ^ 2)) : ℚ) : ℝ)

/-- `np.nanstd` on NaN-free data: population standard deviation. -/
noncomputable def nanstd (l : List ℚ) : ℝ :=
  Real.sqrt ((nanmean (l.map (fun x => (x - nanmean l) ^ 2)) : ℚ) : ℝ)

/-- Embedding of `_crps_tf`: `K.mean(tf.abs(y_pred - y_true)) - factor*std`. -/
noncomputable def crps_tf_core (y_true y_pred : NTensor) (factor : ℚ) : ℝ :=
  ((qmean (List.zipWith (fun p t => |p - t|) y_pred.data y_true.data) : ℚ) : ℝ)
    - (factor : ℝ) * reduce_std y_pred.data

/-- Embedding of `_crps_np`: `np.nanmean(np.abs(y_pred - y_true)) -
factor*np.nanstd(y_pred)`. -/
noncomputable def crps_np_core (y_true y_pred : NTensor) (factor : ℚ) : ℝ :=
  ((nanmean (List.zipWith (fun p t => |p - t|) y_pred.data y_true.data) : ℚ) : ℝ)
    - (factor : ℝ) * nanstd y_pred.data

/-- Embedding of `crps2d_tf`: squeeze both inputs, take
`batch_num = y_pred.shape.as_list()[0]`, accumulate `_crps_tf` over the
first-axis slices and divide by `batch_num`. -/
noncomputable def crps2d_tf (y_true y_pred : NTensor) (factor : ℚ) : ℝ :=
  let yp := squeeze y_pred
  let yt := squeeze y_true
  let batch_num := yp.shape.headD 0
  (((List.range batch_num).map
      (fun i => crps_tf_core (sliceAt yt i) (sliceAt yp i) factor)).sum)
    / (batch_num : ℝ)

/-- Embedding of `crps2d_np`: squeeze both inputs, take
`batch_num = len(y_pred)` (the first axis of the squeezed array), accumulate
`_crps_np` over the first-axis slices and divide by `batch_num`. -/
noncomputable def crps2d_np (y_true y_pred : NTensor) (factor : ℚ) : ℝ :=
  let yt := squeeze y_true
  let yp := squeeze y_pred
  let batch_num := yp.shape.headD 0
  (((List.range batch_num).map
      (fun i => crps_np_core (sliceAt yt i) (sliceAt yp i) factor)).sum)
    / (batch_num : ℝ)

/-- Elementwise subtraction of the last axis with tensorflow broadcasting:
equal widths subtract pointwise, a width-1 operand broadcasts, anything else
is an `InvalidArgumentError`. -/
def broadcastSub (a b : List ℚ) : Except PyError (List ℚ) :=
  if a.length = b.length then .ok (List.zipWith (fun x y => x - y) a b)
  else if b.length = 1 then .ok (a.map (fun x => x - b.headD 0))
  else if a.length = 1 then .ok (b.map (fun y => a.headD 0 - y))
  else .error .invalidArgumentError

/-- Per-row body of `triplet1d`: the slices `y_pred[:, 0:N]`,
`y_pred[:, N:2*N]`, `y_pred[:, 2*N:]` (Python slices clamp out-of-range
bounds and never raise), the squared distances, and the clamped term
`tf.maximum(0., margin + d_pos - d_neg)`. -/
def rowLoss (N : Nat) (margin : ℚ) (r : List ℚ) : Except PyError ℚ :=
  match broadcastSub (r.take N) ((r.drop N).take N),
      broadcastSub (r.take N) (r.drop (2 * N)) with
  | .error e, _ => .error e
  | .ok _, .error e => .error e
  | .ok dp, .ok dn =>
    .ok (max 0 (margin + (dp.map (fun v => v * v)).sum
      - (dn.map (fun v => v * v)).sum))

/-- The per-row terms of `triplet1d`, or the first error the tensor
operations raise. -/
def tripletLosses (N : Nat) (margin : ℚ) : List (List ℚ) → Except PyError (List ℚ)
  | [] => .ok []
  | r :: rs =>
    match rowLoss N margin r, tripletLosses N margin rs with
    | .error e, _ => .error e
    | .ok _, .error e => .error e
    | .ok x, .ok xs => .ok (x :: xs)

/-- Embedding of `triplet1d` on a rectangular batch (rows of equal width, as
any real tensor has): slice each row into anchor/positive/negative blocks,
clamp each row's term at zero, and return `tf.reduce_mean` of the terms. -/
def triplet1d (y_pred : List (List ℚ)) (N : Nat) (margin : ℚ) :
    Except PyError ℚ :=
  match tripletLosses N margin y_pred with
  | .error e => .error e
  | .ok losses => .ok (losses.sum / losses.length)

/-! Helper lemmas. -/

/-- Reading a mapped `range` at an in-range index yields the function value. -/
theorem getD_range_map {α : Type} (f : Nat → α) (d : α) {n i : Nat} (h : i < n) :
    ((List.range n).map f).getD i d = f i := by
  rw [List.getD_eq_getElem _ _ (by simpa using h)]
  simp

/-- Reading a mapped `range' 1` at an in-range index yields the function
value at the shifted index. -/
theorem getD_range'_map {α : Type} (f : Nat → α) (d : α) {n i : Nat} (h : i < n) :
    ((List.range' 1 n).map f).getD i d = f (1 + i) := by
  rw [List.getD_eq_getElem _ _ (by simpa using h)]
  simp

theorem encoderTail_length (cfg : Config) (x : STensor) (fs : List Nat) (idx : Nat) :
    (encoderTail cfg x fs idx).length = fs.length := by
  induction fs generalizing x idx with
  | nil => rfl
  | cons f fs ih => simp [encoderTail, ih]

theorem encoderRow_length (cfg : Config) (h : cfg.filter_num ≠ []) :
    (encoderRow cfg).length = cfg.filter_num.length := by
  obtain ⟨f0, rest, hf⟩ := List.exists_cons_of_ne_nil h
  simp [encoderRow, hf, encoderTail_length]

theorem decoderRow_length (cfg : Config) (rows : List (List STensor)) (L : Nat) :
    (decoderRow cfg rows L).length = cfg.filter_num.length - L := by
  simp [decoderRow]

theorem latticeUpTo_length (cfg : Config) (k : Nat) :
    (latticeUpTo cfg k).length = k + 1 := by
  induction k with
  | zero => rfl
  | succ k ih => simp [latticeUpTo, ih]

/-- Appending a new decoder row does not change the rows already built. -/
theorem latticeUpTo_getD_succ (cfg : Config) {k p : Nat} (hp : p ≤ k) :
    (latticeUpTo cfg (k + 1)).getD p [] = (latticeUpTo cfg k).getD p [] := by
  have hlen : p < (latticeUpTo cfg k).length := by
    rw [latticeUpTo_length]; omega
  show (latticeUpTo cfg k ++ [decoderRow cfg (latticeUpTo cfg k) (k + 1)]).getD p []
      = (latticeUpTo cfg k).getD p []
  exact List.getD_append _ _ _ _ hlen

/-- Row `p` is stable from the moment it is built. -/
theorem latticeUpTo_getD_le (cfg : Config) {k k' p : Nat} (hp : p ≤ k) (hk : k ≤ k') :
    (latticeUpTo cfg k').getD p [] = (latticeUpTo cfg k).getD p [] := by
  induction k', hk using Nat.le_induction with
  | base => rfl
  | succ m hm ih =>
    rw [latticeUpTo_getD_succ cfg (Nat.le_trans hp hm), ih]

/-- The newest row of the lattice is the decoder row built from the previous
rows. -/
theorem latticeUpTo_getD_top (cfg : Config) (k : Nat) :
    (latticeUpTo cfg (k + 1)).getD (k + 1) [] =
      decoderRow cfg (latticeUpTo cfg k) (k + 1) := by
  have hlen : (latticeUpTo cfg k).length = k + 1 := latticeUpTo_length cfg k
  show (latticeUpTo cfg k ++ [decoderRow cfg (latticeUpTo cfg k) (k + 1)]).getD (k + 1) []
      = decoderRow cfg (latticeUpTo cfg k) (k + 1)
  rw [List.getD_append_right _ _ _ _ (by omega), hlen]
  simp

/-- Row `0` of the finished lattice is the encoder row. -/
theorem X_nest_skip_getD_zero (cfg : Config) :
    (X_nest_skip cfg).getD 0 [] = encoderRow cfg := by
  unfold X_nest_skip
  rw [latticeUpTo_getD_le cfg (Nat.zero_le 0) (Nat.zero_le _)]
  rfl

/-- Row `L ≥ 1` of the finished lattice is the decoder row built from the
rows strictly below `L`. -/
theorem X_nest_skip_getD_decoder (cfg : Config) {L : Nat} (h1 : 1 ≤ L)
    (h2 : L ≤ cfg.filter_num.length - 1) :
    (X_nest_skip cfg).getD L [] = decoderRow cfg (latticeUpTo cfg (L - 1)) L := by
  obtain ⟨m, rfl⟩ : ∃ m, L = m + 1 := ⟨L - 1, by omega⟩
  unfold X_nest_skip
  rw [latticeUpTo_getD_le cfg (Nat.le_refl (m + 1)) h2, latticeUpTo_getD_top]
  rfl

/-- A cell read from a partially built lattice agrees with the finished
lattice (rows never change once built). -/
theorem latticeUpTo_cell (cfg : Config) {k p : Nat} (j : Nat) (hp : p ≤ k)
    (hk : k ≤ cfg.filter_num.length - 1) :
    ((latticeUpTo cfg k).getD p []).getD j defaultT = cell cfg p j := by
  unfold cell X_nest_skip
  rw [latticeUpTo_getD_le cfg hp hk, latticeUpTo_getD_le cfg (Nat.le_refl p) hp]

/-- Core decoder equation: for `1 ≤ L ≤ depth-1` and `j < depth - L`, the
cell `X_nest_skip[L][j]` is `UNET_right` of the cell one position right at
the previous level, with the aligned cells of all strictly lower levels as
skip list, width `filter_num[j]`, and name `xnet_{L}{j}`. -/
theorem cell_decoder_eq (cfg : Config) {L j : Nat} (hL1 : 1 ≤ L)
    (hL2 : L ≤ cfg.filter_num.length - 1) (hj : j < cfg.filter_num.length - L) :
    cell cfg L j = STensor.unet_right (cell cfg (L - 1) (j + 1))
      ((List.range L).map (fun p => cell cfg p j))
      (cfg.filter_num.getD j 0) cfg.stack_num_up cfg.activation
      ("xnet_" ++ toString L ++ toString j) := by
  have hrow := X_nest_skip_getD_decoder cfg hL1 hL2
  show ((X_nest_skip cfg).getD L []).getD j defaultT = _
  rw [hrow]
  unfold decoderRow
  rw [getD_range_map _ _ hj]
  have hup : ((latticeUpTo cfg (L - 1)).getD (L - 1) []).getD (j + 1) defaultT
      = cell cfg (L - 1) (j + 1) :=
    latticeUpTo_cell cfg (j + 1) (Nat.le_refl (L - 1)) (by omega)
  have hskips : (List.range L).map
        (fun p => ((latticeUpTo cfg (L - 1)).getD p []).getD j defaultT)
      = (List.range L).map (fun p => cell cfg p j) := by
    refine List.map_congr_left (fun p hpmem => ?_)
    have hpL : p < L := List.mem_range.mp hpmem
    exact latticeUpTo_cell cfg j (by omega) (by omega)
  rw [hup, hskips]

/-- With a nonempty filter schedule, the deep-supervision backbone output is
the list of position-0 cells across all nest levels. -/
theorem backbone_true_eq (cfg : Config) (h : cfg.filter_num ≠ []) :
    unet_plus_2d_backbone cfg true =
      .ok (.tensors ((List.range cfg.filter_num.length).map (fun i => cell cfg i 0))) := by
  obtain ⟨f0, rest, hf⟩ := List.exists_cons_of_ne_nil h
  simp only [unet_plus_2d_backbone, hf]
  rw [← hf]
  rfl

/-- With a nonempty filter schedule, the non-deep-supervision backbone
output is the final nest level's position-0 cell. -/
theorem backbone_false_eq (cfg : Config) (h : cfg.filter_num ≠ []) :
    unet_plus_2d_backbone cfg false =
      .ok (.tensor (cell cfg (cfg.filter_num.length - 1) 0)) := by
  obtain ⟨f0, rest, hf⟩ := List.exists_cons_of_ne_nil h
  simp only [unet_plus_2d_backbone, hf]
  rw [← hf]
  rfl

/-! Claim theorems. -/

/-- C1: for every filter schedule of length `depth ≥ 2`, the decoder cell at
`(nest_level, position)` with `1 ≤ nest_level ≤ depth-1` and
`0 ≤ position ≤ depth-1-nest_level` is the upsampling block applied to
`SkipLattice[nest_level-1][position+1]`, with skip list
`[SkipLattice[p][position] for p in 0..nest_level-1]` in increasing-`p`
order and convolution width `filter_schedule[position]`, and
`SkipLattice[nest_level][position]` holds exactly this fused tensor. -/
theorem decoder_fusion_c1 (cfg : Config) (hd : 2 ≤ cfg.filter_num.length)
    (L j : Nat) (hL1 : 1 ≤ L) (hL2 : L ≤ cfg.filter_num.length - 1)
    (hj : j ≤ cfg.filter_num.length - 1 - L) :
    cell cfg L j = STensor.unet_right (cell cfg (L - 1) (j + 1))
      ((List.range L).map (fun p => cell cfg p j))
      (cfg.filter_num.getD j 0) cfg.stack_num_up cfg.activation
      ("xnet_" ++ toString L ++ toString j) :=
  cell_decoder_eq cfg hL1 hL2 (by omega)

/-- Witness for C1 at the concrete depth-3 configuration, nest level 1,
position 0. -/
theorem decoder_fusion_c1_witness :
    2 ≤ cfgEx.filter_num.length ∧ 1 ≤ 1 ∧ 1 ≤ cfgEx.filter_num.length - 1 ∧
      0 ≤ cfgEx.filter_num.length - 1 - 1 ∧
      cell cfgEx 1 0 = STensor.unet_right (cell cfgEx 0 1)
        ((List.range 1).map (fun p => cell cfgEx p 0))
        (cfgEx.filter_num.getD 0 0) cfgEx.stack_num_up cfgEx.activation
        ("xnet_" ++ toString 1 ++ toString 0) :=
  ⟨by decide, by decide, by decide, by decide,
    decoder_fusion_c1 cfgEx (by decide) 1 0 (by decide) (by decide) (by decide)⟩

/-- C2: for every filter schedule of length `depth ≥ 2`, the
non-deep-supervision backbone output is exactly the last element of the
deep-supervision list (both are `SkipLattice[depth-1][0]`), the two modes
differing only in whether the other position-0 cells are also returned. -/
theorem backbone_modes_agree_c2 (cfg : Config) (hd : 2 ≤ cfg.filter_num.length) :
    unet_plus_2d_backbone cfg true =
      .ok (.tensors ((List.range cfg.filter_num.length).map (fun i => cell cfg i 0))) ∧
    unet_plus_2d_backbone cfg false =
      .ok (.tensor (cell cfg (cfg.filter_num.length - 1) 0)) ∧
    ((List.range cfg.filter_num.length).map (fun i => cell cfg i 0)).length
      = cfg.filter_num.length ∧
    ((List.range cfg.filter_num.length).map (fun i => cell cfg i 0)).getD
        (cfg.filter_num.length - 1) defaultT
      = cell cfg (cfg.filter_num.length - 1) 0 := by
  have hne : cfg.filter_num ≠ [] := by
    intro h
    rw [h] at hd
    simp at hd
  exact ⟨backbone_true_eq cfg hne, backbone_false_eq cfg hne, by simp,
    getD_range_map _ _ (by omega)⟩

/-- Witness for C2 at the concrete depth-3 configuration. -/
theorem backbone_modes_agree_c2_witness :
    2 ≤ cfgEx.filter_num.length ∧
    (unet_plus_2d_backbone cfgEx true =
      .ok (.tensors ((List.range cfgEx.filter_num.length).map (fun i => cell cfgEx i 0))) ∧
    unet_plus_2d_backbone cfgEx false =
      .ok (.tensor (cell cfgEx (cfgEx.filter_num.length - 1) 0)) ∧
    ((List.range cfgEx.filter_num.length).map (fun i => cell cfgEx i 0)).length
      = cfgEx.filter_num.length ∧
    ((List.range cfgEx.filter_num.length).map (fun i => cell cfgEx i 0)).getD
        (cfgEx.filter_num.length - 1) defaultT
      = cell cfgEx (cfgEx.filter_num.length - 1) 0) :=
  ⟨by decide, backbone_modes_agree_c2 cfgEx (by decide)⟩

/-- C3: for every filter schedule of length `depth ≥ 2`, the finished
lattice has `depth` rows, row `nest_level` has exactly `depth - nest_level`
entries (so row `depth-1` has exactly one), and every decoder cell is a
function only of cells at strictly smaller nest levels (the `UNET_right`
equation below exhibits each cell as built once from the previous rows). -/
theorem lattice_shape_c3 (cfg : Config) (hd : 2 ≤ cfg.filter_num.length) :
    (X_nest_skip cfg).length = cfg.filter_num.length ∧
    (∀ L < cfg.filter_num.length,
      ((X_nest_skip cfg).getD L []).length = cfg.filter_num.length - L) ∧
    (∀ L, 1 ≤ L → L < cfg.filter_num.length → ∀ j < cfg.filter_num.length - L,
      cell cfg L j = STensor.unet_right (cell cfg (L - 1) (j + 1))
        ((List.range L).map (fun p => cell cfg p j))
        (cfg.filter_num.getD j 0) cfg.stack_num_up cfg.activation
        ("xnet_" ++ toString L ++ toString j)) := by
  have hne : cfg.filter_num ≠ [] := by
    intro h
    rw [h] at hd
    simp at hd
  refine ⟨?_, ?_, ?_⟩
  · unfold X_nest_skip
    rw [latticeUpTo_length]
    omega
  · intro L hL
    rcases Nat.eq_zero_or_pos L with rfl | hpos
    · rw [X_nest_skip_getD_zero, encoderRow_length cfg hne]
      omega
    · rw [X_nest_skip_getD_decoder cfg hpos (by omega), decoderRow_length]
  · intro L h1 h2 j hj
    exact cell_decoder_eq cfg h1 (by omega) hj

/-- Witness for C3 at the concrete depth-3 configuration: the lattice has 3
rows of lengths 3, 2, 1, and the final cell obeys the decoder equation. -/
theorem lattice_shape_c3_witness :
    2 ≤ cfgEx.filter_num.length ∧
    (X_nest_skip cfgEx).length = cfgEx.filter_num.length ∧
    ((X_nest_skip cfgEx).getD 2 []).length = cfgEx.filter_num.length - 2 ∧
    cell cfgEx 2 0 = STensor.unet_right (cell cfgEx 1 1)
      ((List.range 2).map (fun p => cell cfgEx p 0))
      (cfgEx.filter_num.getD 0 0) cfgEx.stack_num_up cfgEx.activation
      ("xnet_" ++ toString 2 ++ toString 0) :=
  ⟨by decide, (lattice_shape_c3 cfgEx (by decide)).1,
    (lattice_shape_c3 cfgEx (by decide)).2.1 2 (by decide),
    (lattice_shape_c3 cfgEx (by decide)).2.2 2 (by decide) (by decide) 0 (by decide)⟩

/-- C5 counterexample: with an empty filter schedule the backbone does not
fail with the `ConfigurationError` the claim names (it fails with the
`IndexError` from `filter_num[0]`). -/
theorem backbone_empty_not_config_error_c5 :
    unet_plus_2d_backbone ⟨.input [], [], 2, 2, "ReLU", false, true, true, "xnet"⟩ false
      ≠ Except.error PyError.configurationError := by
  simp [unet_plus_2d_backbone]

/-- C5 amended: with an empty filter schedule (`depth < 1`) the backbone
fails eagerly — but with the `IndexError` raised by `filter_num[0]` in the
first encoder block, not with a `ConfigurationError` (no such check exists
in the code) — before producing any output. -/
theorem backbone_empty_index_error_c5 (cfg : Config) (ds : Bool)
    (h : cfg.filter_num = []) :
    unet_plus_2d_backbone cfg ds = Except.error PyError.indexError := by
  simp [unet_plus_2d_backbone, h]

/-- Witness for the amended C5 at a concrete empty-schedule configuration. -/
theorem backbone_empty_index_error_c5_witness :
    (⟨.input [], [], 2, 2, "ReLU", false, true, true, "xnet"⟩ : Config).filter_num = [] ∧
    unet_plus_2d_backbone ⟨.input [], [], 2, 2, "ReLU", false, true, true, "xnet"⟩ true
      = Except.error PyError.indexError :=
  ⟨rfl, backbone_empty_index_error_c5 _ true rfl⟩

/-- C4 counterexample: the printed listing is not a listing of the output
names — at depth 2 with deep supervision the single output head is named
`xnet_output`, while the printed line shows `xnet_output_final`, a name no
output carries. -/
theorem deep_supervision_print_mismatch_c4 :
    (unet_plus_2d [none, none, some 1] [2, 4] 1 1 1 "ReLU" "Softmax" false true true true
        "xnet").map (fun mp => (mp.1.outputs.map outName, mp.2))
      = Except.ok (["xnet_output"], [headerLine, "\txnet_output_final"]) ∧
    "\txnet_output_final" ≠ "\t" ++ "xnet_output" :=
  ⟨rfl, by decide⟩

/-- C4 amended: with `deep_supervision` true and `depth ≥ 2`, the assembler
applies an independent 1x1-convolution output head to each backbone tensor
at indices `1 .. depth-1` of the returned list (skipping the index-0
encoder tensor), producing exactly `depth-1` outputs ordered from
shallowest supervision to final output, and prints one line per output in
declaration order — but the final line shows `{name}_output_final`, whereas
the final head is actually named `{name}_output`. -/
theorem deep_supervision_heads_c4 (input_size : List (Option Nat)) (filter_num : List Nat)
    (n_labels sd su : Nat) (act oact : String) (bn pl up : Bool) (name : String)
    (hd : 2 ≤ filter_num.length) :
    unet_plus_2d input_size filter_num n_labels sd su act oact bn pl up true name
      = Except.ok (⟨[.input input_size],
          (List.range' 1 (filter_num.length - 1)).map (fun i =>
            STensor.conv_output
              (cell (mkCfg input_size filter_num sd su act bn pl up name) i 0)
              n_labels 1 oact
              (if i = filter_num.length - 1 then name ++ "_output"
               else name ++ "_output_sup" ++ toString i)),
          name ++ "_model"⟩,
        headerLine :: ((List.range' 1 (filter_num.length - 2)).map
            (fun i => "\t" ++ name ++ "_output_sup" ++ toString i)
          ++ ["\t" ++ name ++ "_output_final"])) ∧
    ((List.range' 1 (filter_num.length - 1)).map (fun i =>
        STensor.conv_output
          (cell (mkCfg input_size filter_num sd su act bn pl up name) i 0)
          n_labels 1 oact
          (if i = filter_num.length - 1 then name ++ "_output"
           else name ++ "_output_sup" ++ toString i))).length
      = filter_num.length - 1 := by
  have hne : filter_num ≠ [] := by intro h; rw [h] at hd; simp at hd
  have hbb := backbone_true_eq (mkCfg input_size filter_num sd su act bn pl up name) hne
  simp only [mkCfg] at hbb
  refine ⟨?_, by simp⟩
  have key : ∀ (Xs : List STensor), Xs.length = filter_num.length →
      (∀ i, i < filter_num.length →
        Xs.getD i defaultT
          = cell ⟨.input input_size, filter_num, sd, su, act, bn, pl, up, name⟩ i 0) →
      ((List.range' 1 (filter_num.length - 2)).map (fun i =>
          STensor.conv_output (Xs.getD i defaultT) n_labels 1 oact
            (name ++ "_output_sup" ++ toString i)))
        ++ [STensor.conv_output (Xs.getD (Xs.length - 1) defaultT) n_labels 1 oact
            (name ++ "_output")]
      = (List.range' 1 (filter_num.length - 1)).map (fun i =>
          STensor.conv_output
            (cell ⟨.input input_size, filter_num, sd, su, act, bn, pl, up, name⟩ i 0)
            n_labels 1 oact
            (if i = filter_num.length - 1 then name ++ "_output"
             else name ++ "_output_sup" ++ toString i)) := by
    intro Xs hlen hget
    rw [hlen]
    rw [show filter_num.length - 1 = (filter_num.length - 2) + 1 from by omega,
      List.range'_1_concat, List.map_append]
    congr 1
    · refine List.map_congr_left (fun i hi => ?_)
      obtain ⟨t, ht, rfl⟩ := List.mem_range'.mp hi
      rw [hget _ (by omega), if_neg (by omega)]
    · simp only [List.map_cons, List.map_nil]
      rw [show (1 : Nat) + (filter_num.length - 2) = filter_num.length - 2 + 1 from by omega,
        hget _ (by omega), if_pos rfl]
  simp only [unet_plus_2d, hbb, if_true]
  rw [key ((List.range filter_num.length).map (fun i =>
      cell ⟨.input input_size, filter_num, sd, su, act, bn, pl, up, name⟩ i 0))
    (by simp) (fun i hi => getD_range_map _ _ hi)]
  rfl

/-- Witness for the amended C4 at a concrete depth-3 configuration. -/
theorem deep_supervision_heads_c4_witness :
    2 ≤ ([2, 4, 8] : List Nat).length ∧
    (unet_plus_2d [none, none, some 3] [2, 4, 8] 5 2 2 "ReLU" "Softmax" false true true true
        "xnet"
      = Except.ok (⟨[.input [none, none, some 3]],
          (List.range' 1 (([2, 4, 8] : List Nat).length - 1)).map (fun i =>
            STensor.conv_output
              (cell (mkCfg [none, none, some 3] [2, 4, 8] 2 2 "ReLU" false true true "xnet") i 0)
              5 1 "Softmax"
              (if i = ([2, 4, 8] : List Nat).length - 1 then "xnet" ++ "_output"
               else "xnet" ++ "_output_sup" ++ toString i)),
          "xnet" ++ "_model"⟩,
        headerLine :: ((List.range' 1 (([2, 4, 8] : List Nat).length - 2)).map
            (fun i => "\t" ++ "xnet" ++ "_output_sup" ++ toString i)
          ++ ["\t" ++ "xnet" ++ "_output_final"])) ∧
    ((List.range' 1 (([2, 4, 8] : List Nat).length - 1)).map (fun i =>
        STensor.conv_output
          (cell (mkCfg [none, none, some 3] [2, 4, 8] 2 2 "ReLU" false true true "xnet") i 0)
          5 1 "Softmax"
          (if i = ([2, 4, 8] : List Nat).length - 1 then "xnet" ++ "_output"
           else "xnet" ++ "_output_sup" ++ toString i))).length
      = ([2, 4, 8] : List Nat).length - 1) :=
  ⟨by decide,
    deep_supervision_heads_c4 [none, none, some 3] [2, 4, 8] 5 2 2 "ReLU" "Softmax"
      false true true "xnet" (by decide)⟩

/-! Lemmas for the loss functions. -/

/-- Summing `f v v` over a 0/1-valued list gives `0` whenever `f` vanishes
on `(0,0)` and `(1,1)`. -/
theorem zip_self_binary_zero (f : ℚ → ℚ → ℚ) (h0 : f 0 0 = 0) (h1 : f 1 1 = 0)
    (y : List ℚ) (hbin : ∀ v ∈ y, v = 0 ∨ v = 1) :
    (List.zipWith f y y).sum = 0 := by
  induction y with
  | nil => rfl
  | cons a l ih =>
    have ha := hbin a (List.mem_cons_self a l)
    have hl := ih (fun v hv => hbin v (List.mem_cons_of_mem a hv))
    rw [List.zipWith_cons_cons, List.sum_cons, hl]
    rcases ha with rfl | rfl
    · rw [h0]
      ring
    · rw [h1]
      ring

/-- The `true_pos` sum over identical arguments is a sum of squares, hence
nonnegative. -/
theorem zip_self_sq_nonneg (y : List ℚ) :
    0 ≤ (List.zipWith (fun t p => t * p) y y).sum := by
  induction y with
  | nil => simp
  | cons a l ih =>
    rw [List.zipWith_cons_cons, List.sum_cons]
    have := mul_self_nonneg a
    linarith

/-- `broadcastSub` on equal-width operands is the pointwise difference. -/
theorem broadcastSub_eq_ok {a b : List ℚ} (h : a.length = b.length) :
    broadcastSub a b = .ok (List.zipWith (fun x y => x - y) a b) := by
  simp [broadcastSub, h]

/-- A successful `rowLoss` value is clamped at zero. -/
theorem rowLoss_ok_nonneg {N : Nat} {margin : ℚ} {r : List ℚ} {x : ℚ}
    (h : rowLoss N margin r = Except.ok x) : 0 ≤ x := by
  unfold rowLoss at h
  rcases hb1 : broadcastSub (r.take N) ((r.drop N).take N) with e | dp <;> rw [hb1] at h
  · exact absurd h (by simp)
  rcases hb2 : broadcastSub (r.take N) (r.drop (2 * N)) with e | dn <;> rw [hb2] at h
  · exact absurd h (by simp)
  injection h with h'
  rw [← h']
  exact le_max_left 0 _

/-- Every entry of a successful `tripletLosses` result is nonnegative. -/
theorem tripletLosses_ok_nonneg {N : Nat} {margin : ℚ} :
    ∀ {rows : List (List ℚ)} {ls : List ℚ},
      tripletLosses N margin rows = Except.ok ls → ∀ x ∈ ls, 0 ≤ x := by
  intro rows
  induction rows with
  | nil =>
    intro ls h x hx
    unfold tripletLosses at h
    injection h with h'
    rw [← h'] at hx
    simp at hx
  | cons r rs ih =>
    intro ls h x hx
    unfold tripletLosses at h
    rcases hr : rowLoss N margin r with e | v <;> rw [hr] at h
    · exact absurd h (by simp)
    rcases hrs : tripletLosses N margin rs with e | vs <;> rw [hrs] at h
    · exact absurd h (by simp)
    injection h with h'
    rw [← h'] at hx
    rcases List.mem_cons.mp hx with rfl | hx2
    · exact rowLoss_ok_nonneg hr
    · exact ih hrs x hx2

/-- On a batch whose rows all have width exactly `3*N`, `tripletLosses`
succeeds and returns precisely the clamped per-row terms computed from the
width-`N` anchor/positive/negative blocks. -/
theorem tripletLosses_exact (N : Nat) (margin : ℚ) :
    ∀ (rows : List (List ℚ)), (∀ r ∈ rows, r.length = 3 * N) →
      tripletLosses N margin rows = Except.ok (rows.map (fun r =>
        max 0 (margin
          + ((List.zipWith (fun x y => x - y) (r.take N) ((r.drop N).take N)).map
              (fun v => v * v)).sum
          - ((List.zipWith (fun x y => x - y) (r.take N) (r.drop (2 * N))).map
              (fun v => v * v)).sum))) := by
  intro rows
  induction rows with
  | nil => intro _; rfl
  | cons r rs ih =>
    intro hall
    have hr := hall r (List.mem_cons_self r rs)
    have h1 : (r.take N).length = ((r.drop N).take N).length := by
      simp only [List.length_take, List.length_drop, hr]
      omega
    have h2 : (r.take N).length = (r.drop (2 * N)).length := by
      simp only [List.length_take, List.length_drop, hr]
      omega
    have htail := ih (fun q hq => hall q (List.mem_cons_of_mem r hq))
    simp only [tripletLosses, rowLoss, broadcastSub_eq_ok h1, broadcastSub_eq_ok h2, htail,
      List.map_cons]

/-! Claim theorems for the loss functions. -/

/-- C6 counterexample: at `gamma = 0` the Python expression `1/gamma` inside
`focal_tversky` raises `ZeroDivisionError`, so `focal_tversky(y, y, alpha,
gamma)` is not `0` for every `gamma`. -/
theorem focal_tversky_gamma_zero_c6 :
    focal_tversky [1] [1] (1/2) 0 = Except.error PyError.zeroDivisionError ∧
    focal_tversky [1] [1] (1/2) 0 ≠ Except.ok 0 := by
  constructor
  · simp [focal_tversky]
  · simp [focal_tversky]

/-- C6 amended: for every binary `y` with at least one nonzero entry and
every `alpha`, `tversky_(y, y, alpha) = 1` exactly (the false-negative and
false-positive sums are exactly zero), hence `tversky(y, y, alpha) = 0`;
and `focal_tversky(y, y, alpha, gamma) = 0` for every `gamma > 0` — at
`gamma = 0` the function instead raises `ZeroDivisionError`. -/
theorem tversky_self_perfect_c6 (y : List ℚ) (alpha gamma : ℚ)
    (hbin : ∀ v ∈ y, v = 0 ∨ v = 1) (hnz : ∃ v ∈ y, v ≠ 0) (hg : 0 < gamma) :
    tversky_ y y alpha = 1 ∧ tversky y y alpha = 0 ∧
      focal_tversky y y alpha gamma = Except.ok 0 := by
  have hfn := zip_self_binary_zero (fun t p => t * (1 - p)) (by norm_num) (by norm_num) y hbin
  have hfp := zip_self_binary_zero (fun t p => (1 - t) * p) (by norm_num) (by norm_num) y hbin
  have htp := zip_self_sq_nonneg y
  have hone : tversky_ y y alpha = 1 := by
    simp only [tversky_, hfn, hfp]
    rw [mul_zero, mul_zero, add_zero, add_zero]
    have heps : (0 : ℚ) < epsK := by norm_num [epsK]
    exact div_self (by linarith)
  refine ⟨hone, by simp [tversky, hone], ?_⟩
  have hgR : (gamma : ℝ) ≠ 0 := by
    exact_mod_cast hg.ne'
  simp only [focal_tversky, if_neg hg.ne', hone]
  norm_num
  exact Real.zero_rpow (inv_ne_zero hgR)

/-- Witness for the amended C6 on the binary vector `[1, 0]`. -/
theorem tversky_self_perfect_c6_witness :
    ((1 : ℚ) = 0 ∨ (1 : ℚ) = 1) ∧ ((0 : ℚ) = 0 ∨ (0 : ℚ) = 1) ∧ (1 : ℚ) ≠ 0 ∧
      (0 : ℚ) < 2 ∧
      (tversky_ [1, 0] [1, 0] (1/3) = 1 ∧ tversky [1, 0] [1, 0] (1/3) = 0 ∧
        focal_tversky [1, 0] [1, 0] (1/3) 2 = Except.ok 0) :=
  ⟨by norm_num, by norm_num, by norm_num, by norm_num,
    tversky_self_perfect_c6 [1, 0] (1/3) 2
      (by
        intro v hv
        rcases List.mem_cons.mp hv with rfl | hv2
        · right; rfl
        · rcases List.mem_cons.mp hv2 with rfl | hv3
          · left; rfl
          · simp at hv3)
      ⟨1, by simp, by norm_num⟩ (by norm_num)⟩

/-- C7: the graph variant `crps2d_tf` and the eager variant `crps2d_np`
return the same value on every (NaN-free, the only kind expressible here)
pair of inputs, for every factor: on NaN-free data `nanmean`/`nanstd`
coincide with `K.mean`/`reduce_std`, and the two functions otherwise apply
the identical squeeze, batch-count, per-sample loop and division. -/
theorem crps2d_tf_eq_np_c7 (y_true y_pred : NTensor) (factor : ℚ) :
    crps2d_tf y_true y_pred factor = crps2d_np y_true y_pred factor := rfl

/-- C8 counterexample: a batch whose last axis has width `5 ≠ 3*2` on which
`triplet1d` with `N = 2` raises nothing and silently returns `0` (the
width-1 negative block broadcasts against the width-2 anchor). -/
theorem triplet1d_no_width_check_c8 :
    ([1, 2, 3, 4, 7] : List ℚ).length ≠ 3 * 2 ∧
    triplet1d [[1, 2, 3, 4, 7]] 2 5 = Except.ok 0 := by
  constructor
  · decide
  · simp [triplet1d, tripletLosses, rowLoss, broadcastSub]
    norm_num

/-- C8 amended: `triplet1d` performs no width validation and never raises a
`ConfigurationError`; when the last axis is exactly `3*N` it succeeds,
splitting each row into anchor/positive/negative blocks of width `N` and
returning the mean clamped triplet term — a mismatched width is either
broadcast silently (as in the counterexample) or rejected only by the
elementwise subtraction's shape check. -/
theorem triplet1d_exact_split_c8 (rows : List (List ℚ)) (N : Nat) (margin : ℚ)
    (h : ∀ r ∈ rows, r.length = 3 * N) :
    (∀ r ∈ rows, (r.take N).length = N ∧ ((r.drop N).take N).length = N ∧
      (r.drop (2 * N)).length = N) ∧
    triplet1d rows N margin = Except.ok ((rows.map (fun r =>
        max 0 (margin
          + ((List.zipWith (fun x y => x - y) (r.take N) ((r.drop N).take N)).map
              (fun v => v * v)).sum
          - ((List.zipWith (fun x y => x - y) (r.take N) (r.drop (2 * N))).map
              (fun v => v * v)).sum))).sum / (rows.length : ℚ)) := by
  constructor
  · intro r hr
    have hlen := h r hr
    refine ⟨?_, ?_, ?_⟩ <;> (simp only [List.length_take, List.length_drop, hlen]; omega)
  · simp only [triplet1d, tripletLosses_exact N margin rows h, List.length_map]

/-- Witness for the amended C8 on a single width-6 row with `N = 2`. -/
theorem triplet1d_exact_split_c8_witness :
    ([0, 1, 2, 3, 4, 5] : List ℚ).length = 3 * 2 ∧
    (∀ r ∈ ([[0, 1, 2, 3, 4, 5]] : List (List ℚ)), (r.take 2).length = 2 ∧
      ((r.drop 2).take 2).length = 2 ∧ (r.drop (2 * 2)).length = 2) ∧
    triplet1d [[0, 1, 2, 3, 4, 5]] 2 7 = Except.ok
      ((([[0, 1, 2, 3, 4, 5]] : List (List ℚ)).map (fun r =>
        max 0 ((7 : ℚ)
          + ((List.zipWith (fun x y => x - y) (r.take 2) ((r.drop 2).take 2)).map
              (fun v => v * v)).sum
          - ((List.zipWith (fun x y => x - y) (r.take 2) (r.drop (2 * 2))).map
              (fun v => v * v)).sum))).sum
        / (([[0, 1, 2, 3, 4, 5]] : List (List ℚ)).length : ℚ)) :=
  ⟨by decide,
    (triplet1d_exact_split_c8 [[0, 1, 2, 3, 4, 5]] 2 7 (by decide)).1,
    (triplet1d_exact_split_c8 [[0, 1, 2, 3, 4, 5]] 2 7 (by decide)).2⟩

/-- C9: on every nonempty batch, whatever `N` and whatever `margin`
(including zero and negative margins), a successful `triplet1d` value is
nonnegative: each per-row term is clamped by `max(0, ...)` before the mean.
(The model is restricted to nonempty batches: on an empty batch the
tensorflow mean is the float `NaN`, outside this exact model.) -/
theorem triplet1d_nonneg_c9 (rows : List (List ℚ)) (N : Nat) (margin : ℚ) (v : ℚ)
    (hne : rows ≠ []) (h : triplet1d rows N margin = Except.ok v) : 0 ≤ v := by
  unfold triplet1d at h
  rcases hls : tripletLosses N margin rows with e | ls <;> rw [hls] at h
  · exact absurd h (by simp)
  · injection h with h'
    rw [← h']
    refine div_nonneg (List.sum_nonneg ?_) (Nat.cast_nonneg _)
    exact fun x hx => tripletLosses_ok_nonneg hls x hx

/-- Witness for C9: a singleton batch with a negative margin whose loss
evaluates to `0`, which is nonnegative. -/
theorem triplet1d_nonneg_c9_witness :
    ([[1, 2, 3]] : List (List ℚ)) ≠ [] ∧
    triplet1d [[1, 2, 3]] 1 (-5) = Except.ok 0 ∧ (0 : ℚ) ≤ 0 :=
  ⟨by simp,
    by simp [triplet1d, tripletLosses, rowLoss, broadcastSub]; norm_num,
    triplet1d_nonneg_c9 [[1, 2, 3]] 1 (-5) 0 (by simp)
      (by simp [triplet1d, tripletLosses, rowLoss, broadcastSub]; norm_num)⟩

/-- C10: on input of shape `(1, x, y, 1)` with multi-dimensional samples
(`x ≠ 1`, `y ≠ 1`), the squeeze inside `crps2d_np` removes the batch axis,
`batch_num = len(y_pred)` becomes the first spatial dimension `x`, and the
function returns the average over the `x` rows of the per-row CRPS — and
`crps2d_tf` takes its batch count from the first axis of the squeezed
tensor in the same way.  The final conjunct shows at a concrete input that
this row-average is not the CRPS of the sample computed as one whole. -/
theorem crps2d_batch1_rows_c10 :
    (∀ (x y : Nat) (dt dp : List ℚ) (factor : ℚ), x ≠ 1 → y ≠ 1 →
      crps2d_np ⟨[1, x, y, 1], dt⟩ ⟨[1, x, y, 1], dp⟩ factor =
        (((List.range x).map (fun i =>
            crps_np_core ⟨[y], (dt.drop (i * y)).take y⟩
              ⟨[y], (dp.drop (i * y)).take y⟩ factor)).sum) / (x : ℝ) ∧
      crps2d_tf ⟨[1, x, y, 1], dt⟩ ⟨[1, x, y, 1], dp⟩ factor =
        (((List.range x).map (fun i =>
            crps_tf_core ⟨[y], (dt.drop (i * y)).take y⟩
              ⟨[y], (dp.drop (i * y)).take y⟩ factor)).sum) / (x : ℝ)) ∧
    crps2d_np ⟨[1, 2, 2, 1], [0, 0, 0, 2]⟩ ⟨[1, 2, 2, 1], [0, 0, 0, 2]⟩ 1 ≠
      crps_np_core (squeeze ⟨[1, 2, 2, 1], [0, 0, 0, 2]⟩)
        (squeeze ⟨[1, 2, 2, 1], [0, 0, 0, 2]⟩) 1 := by
  constructor
  · intro x y dt dp factor hx hy
    have hsq : ∀ d : List ℚ, squeeze ⟨[1, x, y, 1], d⟩ = ⟨[x, y], d⟩ := by
      intro d
      simp [squeeze, hx, hy]
    constructor
    · simp only [crps2d_np, hsq, sliceAt]
      simp
    · simp only [crps2d_tf, hsq, sliceAt]
      simp
  · have h1 : crps2d_np ⟨[1, 2, 2, 1], [0, 0, 0, 2]⟩ ⟨[1, 2, 2, 1], [0, 0, 0, 2]⟩ 1
        = -(1/2) := by
      simp [crps2d_np, squeeze, sliceAt, crps_np_core, nanmean, nanstd, List.range_succ]
      norm_num [Real.sqrt_eq_zero]
    have h2 : crps_np_core (squeeze ⟨[1, 2, 2, 1], [0, 0, 0, 2]⟩)
          (squeeze ⟨[1, 2, 2, 1], [0, 0, 0, 2]⟩) 1
        = -Real.sqrt (3/4) := by
      simp [crps_np_core, squeeze, nanmean, nanstd]
      norm_num
    rw [h1, h2]
    intro hcontra
    have hs : Real.sqrt (3/4) = 1/2 := by linarith
    have hsq3 : (Real.sqrt (3/4)) ^ 2 = 3/4 := Real.sq_sqrt (by norm_num)
    rw [hs] at hsq3
    norm_num at hsq3

/-- Witness for C10: a shape-`(1,2,3,1)` pair on which `crps2d_np` is the
average of the two per-row CRPS values. -/
theorem crps2d_batch1_rows_c10_witness :
    (2 : Nat) ≠ 1 ∧ (3 : Nat) ≠ 1 ∧
    crps2d_np ⟨[1, 2, 3, 1], [0, 1, 2, 3, 4, 5]⟩ ⟨[1, 2, 3, 1], [5, 4, 3, 2, 1, 0]⟩ (1/20) =
      (((List.range 2).map (fun i =>
          crps_np_core ⟨[3], (([0, 1, 2, 3, 4, 5] : List ℚ).drop (i * 3)).take 3⟩
            ⟨[3], (([5, 4, 3, 2, 1, 0] : List ℚ).drop (i * 3)).take 3⟩ (1/20))).sum) / (2 : ℝ) :=
  ⟨by decide, by decide,
    (crps2d_batch1_rows_c10.1 2 3 [0, 1, 2, 3, 4, 5] [5, 4, 3, 2, 1, 0] (1/20)
      (by decide) (by decide)).1⟩

end KUC
